import Mathlib

/-!
Shallow embedding of the invoice field extraction engine
(`src/invoice_extractor.py`) and proofs about its behaviour.

Text is modelled as `List Char`.  Python's Unicode-aware character classes
(`str.isdigit`, regex `\d`, `\w`, `\s`) are modelled on the character ranges
that occur in this development: ASCII, fullwidth digits, and CJK ideographs.
Numeric values (Python `float`) are modelled as `ℚ`; every numeral the engine
manipulates is a short decimal literal, for which rational arithmetic agrees
with the source's floating point arithmetic.
-/

namespace Invoice

/-- Python `str.isdigit` / regex `\d`, which accept every Unicode decimal
digit, modelled on the two ranges occurring here: ASCII digits `0`-`9` and
fullwidth digits U+FF10-U+FF19. -/
def pyIsDigit (c : Char) : Bool :=
  c.isDigit || (0xFF10 ≤ c.toNat && c.toNat ≤ 0xFF19)

/-- Numeric value of a decimal-digit character (`int(ch)` in the source). -/
def pyDigitVal (c : Char) : Nat :=
  if c.isDigit then c.toNat - '0'.toNat else c.toNat - 0xFF10

/-- Python `int(s)` on a string of decimal digits. -/
def pyStrToNat (l : List Char) : Nat :=
  l.foldl (fun a c => a * 10 + pyDigitVal c) 0

/-- Python regex `\s` (ASCII part, which is all that occurs here). -/
def pyIsSpace (c : Char) : Bool :=
  c == ' ' || c == '\t' || c == '\n' || c == '\r' || c == '\x0b' || c == '\x0c'

/-- Python regex `\w` (ASCII word characters plus CJK ideographs, the ranges
occurring in this development; Python's class is all Unicode word chars). -/
def pyIsWordChar (c : Char) : Bool :=
  ('a' ≤ c && c ≤ 'z') || ('A' ≤ c && c ≤ 'Z') || pyIsDigit c || c == '_' ||
    (0x4E00 ≤ c.toNat && c.toNat ≤ 0x9FFF)

/-- CJK ideograph, the regex class `[一-鿿]`. -/
def isCJK (c : Char) : Bool :=
  0x4E00 ≤ c.toNat && c.toNat ≤ 0x9FFF

/-- Python `str.strip()`: remove leading and trailing whitespace. -/
def pyStrip (l : List Char) : List Char :=
  ((l.dropWhile pyIsSpace).reverse.dropWhile pyIsSpace).reverse

/-! ## The identifier checksum (`InvoiceExtractor._is_valid_taiwan_tax_id`) -/

/-- The checksum weights (`weights` in the source). -/
def taxWeights : List Nat := [1, 2, 1, 2, 1, 2, 4, 1]

/-- `q, r = divmod(product, 10); total += q + r`: the decimal-digit fold of a
single product (every product is below 100, so one fold step suffices). -/
def foldDigits (p : Nat) : Nat := p / 10 + p % 10

/-- The checksum total of `_is_valid_taiwan_tax_id`. -/
def taxIdTotal (l : List Char) : Nat :=
  (List.zipWith (fun c w => foldDigits (pyDigitVal c * w)) l taxWeights).sum

/-- `InvoiceExtractor._is_valid_taiwan_tax_id`. -/
def isValidTaiwanTaxId (l : List Char) : Bool :=
  if l.length ≠ 8 || !(l.all pyIsDigit) then false
  else
    let total := taxIdTotal l
    if total % 10 = 0 then true
    else if l.getD 6 ' ' = '7' && (total + 1) % 10 = 0 then true
    else false

/-- Specification-side checksum total: the sum over positions 0-7 of the
decimal-digit-sum of (digit x weight), digit sums taken via `Nat.digits`. -/
def specChecksum (l : List Char) : Nat :=
  ∑ i ∈ Finset.range 8, (Nat.digits 10 (pyDigitVal (l.getD i ' ') * taxWeights.getD i 0)).sum

/-- The special second rule of the checksum, on the code's own total: the
digit at 0-indexed position 6 is `7` and `total + 1` is divisible by 10. -/
def specialRuleHits (l : List Char) : Bool :=
  l.getD 6 ' ' = '7' && (taxIdTotal l + 1) % 10 = 0

/-! ## Regex scanning primitives

Each `re.search` is modelled by trying an anchored matcher at every position,
left to right (`reSearchPos` also reports the index of the match start).
An anchored matcher receives the suffix of the text beginning at the
candidate position and returns the captured data, `none` if there is no
match starting there. -/

/-- Leftmost match of an anchored matcher, with the start index. -/
def reSearchPos {α : Type} (m : List Char → Option α) : List Char → Option (Nat × α)
  | [] => (m []).map (fun r => (0, r))
  | c :: rest =>
    match m (c :: rest) with
    | some r => some (0, r)
    | none => (reSearchPos m rest).map (fun p => (p.1 + 1, p.2))

/-- Leftmost match of an anchored matcher (`re.search`). -/
def reSearch {α : Type} (m : List Char → Option α) (l : List Char) : Option α :=
  (reSearchPos m l).map Prod.snd

/-- All non-overlapping matches, left to right (`re.findall`).  The anchored
matcher returns the captured group together with the number of characters the
whole match consumed.  Structural recursion on a fuel that always exceeds the
remaining length, so that the function reduces in the kernel. -/
def reFindAllAux {α : Type} (m : List Char → Option (α × Nat)) : Nat → List Char → List α
  | 0, _ => []
  | _ + 1, [] =>
    match m [] with
    | some (g, _) => [g]
    | none => []
  | fuel + 1, c :: rest =>
    match m (c :: rest) with
    | some (g, k) => g :: reFindAllAux m fuel (rest.drop (k - 1))
    | none => reFindAllAux m fuel rest

/-- `re.findall` for an anchored matcher that consumes at least one
character per match. -/
def reFindAll {α : Type} (m : List Char → Option (α × Nat)) (l : List Char) : List α :=
  reFindAllAux m (l.length + 1) l

/-- Exactly `k` decimal digits at the front: returns them and the remainder. -/
def digitsPrefix (l : List Char) (k : Nat) : Option (List Char × List Char) :=
  let ds := l.take k
  if ds.length = k && ds.all pyIsDigit then some (ds, l.drop k) else none

/-- `\s*`: drop the (greedy, maximal) run of whitespace. -/
def dropSpaces (l : List Char) : List Char := l.dropWhile pyIsSpace

/-! ## Invoice number (`InvoiceExtractor._extract_invoice_number`)

Pattern `[A-Z][A-D][-\s]?\d{8}`; the optional separator is tried greedily
first, exactly as the backtracking engine does. -/

/-- Anchored matcher for the invoice number pattern; returns the matched
substring. -/
def matchInvNumAt (l : List Char) : Option (List Char) :=
  match l with
  | c0 :: c1 :: rest =>
    if ('A' ≤ c0 && c0 ≤ 'Z') && ('A' ≤ c1 && c1 ≤ 'D') then
      match rest with
      | c2 :: rest2 =>
        if c2 == '-' || pyIsSpace c2 then
          match digitsPrefix rest2 8 with
          | some (ds, _) => some (c0 :: c1 :: c2 :: ds)
          | none =>
            -- backtrack: the optional separator is not taken
            match digitsPrefix rest 8 with
            | some (ds, _) => some (c0 :: c1 :: ds)
            | none => none
        else
          match digitsPrefix rest 8 with
          | some (ds, _) => some (c0 :: c1 :: ds)
          | none => none
      | [] => none
    else none
  | _ => none

/-- `_extract_invoice_number`: first match, with `" "` and `"-"` removed. -/
def extractInvoiceNumber (text : List Char) : List Char :=
  match reSearch matchInvNumAt text with
  | some m => m.filter (fun c => c ≠ ' ' && c ≠ '-')
  | none => []

/-! ## Dates (`InvoiceExtractor._extract_date`) -/

/-- Decimal digits of a natural number (the rendering `f"{year}"` performs),
fuel-based so that it reduces in the kernel. -/
def natCharsCore : Nat → Nat → List Char → List Char
  | 0, _, acc => acc
  | fuel + 1, n, acc =>
    let d := Char.ofNat (48 + n % 10)
    if n < 10 then d :: acc else natCharsCore fuel (n / 10) (d :: acc)

/-- Decimal representation of a natural number as characters. -/
def natChars (n : Nat) : List Char := natCharsCore (n + 1) n []

/-- `f"{n:02d}"`: zero-pad to two digits. -/
def pad2 (n : Nat) : List Char := if n < 10 then '0' :: natChars n else natChars n

/-- One-character class `[年/]` or `[月/]`: expects `sep` or `'/'` next. -/
def sepThen (sep : Char) (l : List Char) : Option (List Char) :=
  match l with
  | c :: rest => if c == sep || c == '/' then some rest else none
  | [] => none

/-- Day part `\s*(\d{1,2})\s*日?` of the ROC date pattern: the greedy
`\d{1,2}` tries two digits, then one; the trailing `\s*日?` always matches. -/
def tryTWDay (r : List Char) : Option (List Char) :=
  match digitsPrefix (dropSpaces r) 2 with
  | some (ds, _) => some ds
  | none =>
    match digitsPrefix (dropSpaces r) 1 with
    | some (ds, _) => some ds
    | none => none

/-- Month-with-day part `\s*(\d{1,2})\s*[月/]` followed by the day part, for
a fixed month-digit count `k`. -/
def tryTWMonth (l : List Char) (k : Nat) : Option (List Char × List Char) :=
  match digitsPrefix (dropSpaces l) k with
  | some (ms, r1) =>
    match sepThen '月' (dropSpaces r1) with
    | some r2 => (tryTWDay r2).map (fun ds => (ms, ds))
    | none => none
  | none => none

/-- Tail of the ROC-calendar date pattern after the year and its separator:
the greedy `\d{1,2}` month alternatives are tried longest first. -/
def matchTWMonthDay (l : List Char) : Option (List Char × List Char) :=
  (tryTWMonth l 2).orElse (fun _ => tryTWMonth l 1)

/-- Year part `(\d{2,3})\s*[年/]` with a fixed year-digit count `k`, followed
by the rest of the ROC date pattern. -/
def tryTWYear (l : List Char) (k : Nat) : Option (List Char × List Char × List Char) :=
  match digitsPrefix l k with
  | some (ys, r1) =>
    match sepThen '年' (dropSpaces r1) with
    | some r2 => (matchTWMonthDay r2).map (fun p => (ys, p.1, p.2))
    | none => none
  | none => none

/-- Anchored matcher for `date_tw`:
`(\d{2,3})\s*[年/]\s*(\d{1,2})\s*[月/]\s*(\d{1,2})\s*日?`.
Returns the three captured groups (year, month, day); the greedy `\d{2,3}`
year alternatives are tried longest first. -/
def matchDateTWAt (l : List Char) : Option (List Char × List Char × List Char) :=
  (tryTWYear l 3).orElse (fun _ => tryTWYear l 2)

/-- One-character class: a hyphen or a slash. -/
def sepWestern (r : List Char) : Option (List Char) :=
  match r with
  | c :: rest => if c == '-' || c == '/' then some rest else none
  | [] => none

/-- Day part `(\d{1,2})` of the western date pattern, greedy. -/
def tryWDay (r : List Char) : Option (List Char) :=
  match digitsPrefix r 2 with
  | some (ds, _) => some ds
  | none => (digitsPrefix r 1).map Prod.fst

/-- Month part `(\d{1,2})` with its separator and the day, for a fixed
month-digit count `k`. -/
def tryWMonth (r : List Char) (k : Nat) : Option (List Char × List Char) :=
  match digitsPrefix r k with
  | some (ms, r1) =>
    match sepWestern r1 with
    | some r2 => (tryWDay r2).map (fun ds => (ms, ds))
    | none => none
  | none => none

/-- Anchored matcher for `date_western`: four year digits, a hyphen or slash,
one or two month digits, a hyphen or slash, one or two day digits (each
`\d{1,2}` greedy, longest first). -/
def matchDateWesternAt (l : List Char) : Option (List Char × List Char × List Char) :=
  match digitsPrefix l 4 with
  | some (ys, r1) =>
    match sepWestern r1 with
    | some r2 =>
      ((tryWMonth r2 2).orElse (fun _ => tryWMonth r2 1)).map (fun p => (ys, p.1, p.2))
    | none => none
  | none => none

/-- `_extract_date`: ROC pattern first (years 1-150 offset by 1911), then the
western pattern (whose year group is used verbatim, as a string), else `""`. -/
def extractDate (text : List Char) : List Char :=
  match reSearch matchDateTWAt text with
  | some (ys, ms, ds) =>
    let y := pyStrToNat ys
    let y := if 1 ≤ y ∧ y ≤ 150 then y + 1911 else y
    natChars y ++ '/' :: (pad2 (pyStrToNat ms) ++ '/' :: pad2 (pyStrToNat ds))
  | none =>
    match reSearch matchDateWesternAt text with
    | some (ys, ms, ds) =>
      ys ++ '/' :: (pad2 (pyStrToNat ms) ++ '/' :: pad2 (pyStrToNat ds))
    | none => []

/-! ## Identifier candidates (`InvoiceExtractor._extract_tax_ids`)

`re.findall(r"\b\d{8}\b", text)`: eight decimal digits enclosed in word
boundaries; matches are non-overlapping, left to right.  The scan keeps track
of whether the previous character was a word character. -/

/-- Word-boundary condition after a match: end of text or a non-word char. -/
def boundaryAfter (l : List Char) : Bool :=
  match l with
  | [] => true
  | c :: _ => !pyIsWordChar c

/-- All `\b\d{8}\b` matches.  `prevWord` records whether the character just
before the current position is a word character (`false` at the start); the
fuel always exceeds the remaining length, keeping the recursion structural. -/
def findTaxIdCandidatesAux : Nat → List Char → Bool → List (List Char)
  | 0, _, _ => []
  | _ + 1, [], _ => []
  | fuel + 1, c :: rest, prevWord =>
    let ds := (c :: rest).take 8
    if !prevWord && pyIsDigit c && ds.length = 8 && ds.all pyIsDigit
        && boundaryAfter ((c :: rest).drop 8) then
      ds :: findTaxIdCandidatesAux fuel ((c :: rest).drop 8) true
    else
      findTaxIdCandidatesAux fuel rest (pyIsWordChar c)

/-- `re.findall(r"\b\d{8}\b", text)`. -/
def findTaxIdCandidates (text : List Char) : List (List Char) :=
  findTaxIdCandidatesAux (text.length + 1) text false

/-- `_extract_tax_ids`: keep the checksum-valid candidates, drop duplicates
keeping the first occurrence, return the first two. -/
def extractTaxIds (text : List Char) : List (List Char) :=
  let validIds := (findTaxIdCandidates text).foldl
    (fun acc m => if isValidTaiwanTaxId m && !(acc.contains m) then acc ++ [m] else acc) []
  validIds.take 2

/-! ## Company names (`InvoiceExtractor._extract_company_names`) -/

/-- The legal-entity suffix alternatives, in the order the regex tries them. -/
def companySuffixes : List (List Char) :=
  [ "股份有限公司".toList, "有限公司".toList, "公司".toList, "企業".toList,
    "行號".toList, "商行".toList, "工廠".toList, "事務所".toList ]

/-- Backtracking split for the suffix-based entity pattern: the greedy CJK run
gives back characters one at a time (longest prefix first); at each split the
suffix alternatives are tried in order. -/
def tryCompanySplit (l : List Char) : Nat → Option (List Char × Nat)
  | 0 => none
  | p + 1 =>
    match companySuffixes.find? (fun suf => suf.isPrefixOf (l.drop (p + 1))) with
    | some suf => some (l.take (p + 1) ++ suf, p + 1 + suf.length)
    | none => tryCompanySplit l p

/-- Anchored matcher for the suffix-based entity pattern; the captured group
is the whole match.  Returns the group and the number of characters consumed. -/
def matchCompanyAt (l : List Char) : Option (List Char × Nat) :=
  tryCompanySplit l (l.takeWhile isCJK).length

/-- Anchored matcher for a label-anchored pattern such as
`賣方[：:]\s*([一-鿿]+)`: the label, a fullwidth or ASCII colon, optional
whitespace, then a greedy nonempty CJK run (the captured group). -/
def matchLabeledAt (label : List Char) (l : List Char) : Option (List Char × Nat) :=
  if label.isPrefixOf l then
    match l.drop label.length with
    | c :: r1 =>
      if c == '：' || c == ':' then
        let r2 := dropSpaces r1
        let run := r2.takeWhile isCJK
        if run ≠ [] then some (run, l.length - (r2.length - run.length)) else none
      else none
    | [] => none
  else none

/-- `_extract_company_names`: run the four patterns in order, appending each
nonempty, unseen match of length at least two; return the first two. -/
def extractCompanyNames (text : List Char) : List (List Char) :=
  let allMatches :=
    reFindAll matchCompanyAt text ++
    reFindAll (matchLabeledAt ("賣方".toList)) text ++
    reFindAll (matchLabeledAt ("買方".toList)) text ++
    reFindAll (matchLabeledAt ("營業人".toList)) text
  let names := allMatches.foldl
    (fun acc m => if m ≠ [] && !(acc.contains m) && m.length ≥ 2 then acc ++ [m] else acc) []
  names.take 2

/-! ## Amounts (`InvoiceExtractor._extract_amounts`) -/

/-- `[\d,]`: characters of a numeric token with thousands separators. -/
def isAmountChar (c : Char) : Bool := pyIsDigit c || c == ','

/-- The suffix at which the amount group starts after a keyword, following
the backtracking of `[^\d]*([\d,]+...)`: the greedy `[^\d]*` stops at the
first digit; if there is no digit it gives characters back from the right, so
the group starts at the last comma; otherwise the keyword position fails. -/
def amountGroupSuffix : List Char → Option (List Char)
  | [] => none
  | c :: rest =>
    if pyIsDigit c then some (c :: rest)
    else
      match amountGroupSuffix rest with
      | some s => some s
      | none => if c == ',' then some (c :: rest) else none

/-- The captured group `[\d,]+(?:\.\d{2})?` at the start of `s` (which begins
with a digit or comma): the greedy digit-and-comma run, then optionally a dot
followed by exactly two digits. -/
def amountTokenAt (s : List Char) : List Char :=
  let run := s.takeWhile isAmountChar
  match s.drop run.length with
  | '.' :: d1 :: d2 :: _ =>
    if pyIsDigit d1 && pyIsDigit d2 then run ++ '.' :: d1 :: d2 :: [] else run
  | _ => run

/-- ASCII lower-casing, for `re.IGNORECASE` keyword comparison. -/
def lowerChar (c : Char) : Char :=
  if 'A' ≤ c && c ≤ 'Z' then Char.ofNat (c.toNat + 32) else c

/-- Case-insensitive prefix test for a keyword. -/
def ciPrefixOf (kw l : List Char) : Bool :=
  (kw.map lowerChar).isPrefixOf ((l.take kw.length).map lowerChar)

/-- Leftmost keyword-anchored amount token: at each position, the first
matching keyword alternative, followed by `[^\d]*([\d,]+(?:\.\d{2})?)`. -/
def searchAmountToken (kws : List (List Char)) : List Char → Option (List Char)
  | [] => none
  | c :: rest =>
    match kws.find? (fun kw => ciPrefixOf kw (c :: rest)) with
    | some kw =>
      match amountGroupSuffix ((c :: rest).drop kw.length) with
      | some s => some (amountTokenAt s)
      | none => searchAmountToken kws rest
    | none => searchAmountToken kws rest

/-- `_parse_amount`: strip commas and spaces, then `float(...)`, with a parse
failure yielding `0.0`.  The tokens reaching this function consist of digits
and commas with an optional two-decimal fraction. -/
def parseAmount (token : List Char) : ℚ :=
  let clean := token.filter (fun c => c ≠ ',' && c ≠ ' ')
  if clean = [] then 0
  else
    let ip := clean.takeWhile pyIsDigit
    match clean.drop ip.length with
    | [] => (pyStrToNat ip : ℚ)
    | '.' :: fr =>
      if fr.length = 2 && fr.all pyIsDigit then
        (pyStrToNat ip : ℚ) + (pyStrToNat fr : ℚ) / 100
      else 0
    | _ => 0

/-- Keyword alternatives of the three amount patterns, in regex order. -/
def totalKeywords : List (List Char) :=
  [ "合計".toList, "總計".toList, "總額".toList, "應付".toList, "Total".toList ]

def taxKeywords : List (List Char) :=
  [ "營業稅".toList, "稅額".toList, "稅金".toList, "Tax".toList ]

def subtotalKeywords : List (List Char) :=
  [ "小計".toList, "未稅".toList, "銷售額".toList, "Subtotal".toList ]

/-- The `amounts` dictionary of `_extract_amounts`. -/
structure Amounts where
  total : Option ℚ
  tax : Option ℚ
  subtotal : Option ℚ
deriving DecidableEq, Repr

/-- `_extract_amounts`: search the three keyword patterns independently; if
no subtotal was found but total and tax were, derive subtotal as their
difference. -/
def extractAmounts (text : List Char) : Amounts :=
  let t := (searchAmountToken totalKeywords text).map parseAmount
  let x := (searchAmountToken taxKeywords text).map parseAmount
  let s0 := (searchAmountToken subtotalKeywords text).map parseAmount
  let s :=
    match s0, t, x with
    | none, some tv, some xv => some (tv - xv)
    | s0, _, _ => s0
  ⟨t, x, s⟩

/-! ## Line items from tables (`InvoiceExtractor._extract_items_from_tables`)

A table grid is a list of rows; a cell is `Option (List Char)` (the decoder
may yield missing cells).  A cell is truthy when it is present and nonempty. -/

/-- Python `float(s)` on plain decimal text, as a rational: optional
surrounding whitespace, an optional sign, then digits with at most one
decimal point (at least one digit overall).  Exotic accepted forms
(exponents, `inf`/`nan`, `_` separators) are not modelled; none occur in the
texts considered here. -/
def pyFloatCore (t : List Char) : Option ℚ :=
  let ip := t.takeWhile pyIsDigit
  match t.drop ip.length with
  | [] => if ip = [] then none else some (pyStrToNat ip : ℚ)
  | '.' :: fr =>
    let fd := fr.takeWhile pyIsDigit
    if fr.drop fd.length = [] && !(ip = [] && fd = []) then
      some ((pyStrToNat ip : ℚ) + (pyStrToNat fd : ℚ) / 10 ^ fd.length)
    else none
  | _ => none

def pyFloat (l : List Char) : Option ℚ :=
  match pyStrip l with
  | '-' :: r => (pyFloatCore r).map (fun v => -v)
  | '+' :: r => pyFloatCore r
  | r => pyFloatCore r

/-- A table cell: possibly missing text. -/
abbrev Cell := Option (List Char)

/-- A table row. -/
abbrev Row := List Cell

/-- A table grid. -/
abbrev Grid := List Row

/-- Python truthiness of a cell (`if cell`): present and nonempty. -/
def cellTruthy (cell : Cell) : Bool :=
  match cell with
  | some s => s ≠ []
  | none => false

/-- `str(cell)` under a truthiness guard, as used by the source. -/
def cellText (cell : Cell) : List Char :=
  match cell with
  | some s => s
  | none => []

/-- The item/name keyword tokens used for header detection and the name
column. -/
def itemKeywords : List (List Char) :=
  [ "品名".toList, "品項".toList, "項目".toList, "商品".toList, "名稱".toList ]

def qtyKeywords : List (List Char) := [ "數量".toList, "數".toList, "Qty".toList ]

def priceKeywords : List (List Char) := [ "單價".toList, "價格".toList, "Price".toList ]

def amountKeywords : List (List Char) := [ "金額".toList, "小計".toList, "Amount".toList ]

/-- Substring containment (Python `keyword in text`). -/
def isSubstring (sub : List Char) : List Char → Bool
  | [] => sub.isPrefixOf []
  | c :: rest => sub.isPrefixOf (c :: rest) || isSubstring sub rest

/-- Header detection for one row: some truthy cell whose text contains an
item/name keyword (`any(keyword in str(cell) for cell in row if cell ...)`). -/
def rowHasItemKeyword (row : Row) : Bool :=
  row.any (fun cell =>
    cellTruthy cell && itemKeywords.any (fun kw => isSubstring kw (cellText cell)))

/-- The header strings of the header row
(`str(cell).strip() if cell else ""`). -/
def headerStrings (row : Row) : List (List Char) :=
  row.map (fun cell => if cellTruthy cell then pyStrip (cellText cell) else [])

/-- `_find_column`: index of the first header containing one of the
keywords. -/
def findColumn (headers : List (List Char)) (kws : List (List Char)) : Option Nat :=
  headers.findIdx? (fun h => kws.any (fun kw => isSubstring kw h))

/-- `InvoiceItem` with its defaults. -/
structure InvoiceItem where
  name : List Char
  quantity : ℚ := 1
  unit_price : ℚ := 0
  amount : ℚ := 0
deriving DecidableEq, Repr

/-- The dataclass constructor including `__post_init__`: when the amount is
zero and the unit price positive, the amount is computed as
quantity x unit price. -/
def mkInvoiceItem (name : List Char) (quantity unit_price amount : ℚ) : InvoiceItem :=
  if amount = 0 ∧ unit_price > 0 then
    ⟨name, quantity, unit_price, quantity * unit_price⟩
  else
    ⟨name, quantity, unit_price, amount⟩

/-- Parse an optional numeric cell of a data row: the guard
`col is not None and len(row) > col and row[col]` followed by
`float(str(cell).replace(",", ""))`, keeping `dflt` on absence or failure. -/
def parseCellNum (row : Row) (col : Option Nat) (dflt : ℚ) : ℚ :=
  match col with
  | some c =>
    if row.length > c && cellTruthy (row.getD c none) then
      match pyFloat ((cellText (row.getD c none)).filter (fun ch => ch ≠ ',')) with
      | some v => v
      | none => dflt
    else dflt
  | none => dflt

/-- Process one data row: skip it when it is too short for the name column or
when the (trimmed) name is empty; otherwise build the item, starting from the
bare constructed `InvoiceItem(name=name)` and assigning the parsed numeric
fields. -/
def processRow (nameCol : Nat) (qtyCol priceCol amountCol : Option Nat)
    (row : Row) : Option InvoiceItem :=
  if row = [] || row.length ≤ nameCol then none
  else
    let name :=
      if cellTruthy (row.getD nameCol none) then pyStrip (cellText (row.getD nameCol none))
      else []
    if name = [] then none
    else
      let item0 := mkInvoiceItem name 1 0 0
      some { item0 with
        quantity := parseCellNum row qtyCol 1
        unit_price := parseCellNum row priceCol 0
        amount := parseCellNum row amountCol 0 }

/-- Line items contributed by one grid. -/
def gridItems (grid : Grid) : List InvoiceItem :=
  if grid = [] || grid.length < 2 then []
  else
    match grid.findIdx? rowHasItemKeyword with
    | none => []
    | some h =>
      let headers := headerStrings (grid.getD h [])
      match findColumn headers itemKeywords with
      | none => []  -- unreachable: the header row contains an item keyword
      | some nameCol =>
        let qtyCol := findColumn headers qtyKeywords
        let priceCol := findColumn headers priceKeywords
        let amountCol := findColumn headers amountKeywords
        (grid.drop (h + 1)).filterMap (processRow nameCol qtyCol priceCol amountCol)

/-- `_extract_items_from_tables`: items of all grids, in order. -/
def extractItemsFromTables (tables : List Grid) : List InvoiceItem :=
  (tables.map gridItems).flatten

/-! ## The assembled record (`InvoiceExtractor._extract_invoice_data`) -/

/-- The part of `PDFContent` the engine reads. -/
structure PDFContentM where
  raw_text : List Char
  tables : List Grid

/-- The `InvoiceData` dataclass (fields the engine writes). -/
structure InvoiceData where
  invoice_number : List Char := []
  invoice_date : List Char := []
  invoice_type : List Char := []
  seller_id : List Char := []
  seller_name : List Char := []
  seller_address : List Char := []
  buyer_id : List Char := []
  buyer_name : List Char := []
  buyer_address : List Char := []
  subtotal : ℚ := 0
  tax_rate : ℚ := 5 / 100
  tax_amount : ℚ := 0
  total_amount : ℚ := 0
  items : List InvoiceItem := []
  confidence : ℚ := 0
deriving DecidableEq, Repr

/-- Python truthiness of the `amounts` dictionary (`if amounts:`): at least
one of the three keys is present. -/
def amountsTruthy (text : List Char) : Bool :=
  (extractAmounts text).total.isSome || (extractAmounts text).tax.isSome ||
    (extractAmounts text).subtotal.isSome

/-- The `total_amount` field: `amounts.get("total", 0)` under the dictionary
truthiness guard, `0.0` otherwise. -/
def totalAmountOf (text : List Char) : ℚ :=
  if amountsTruthy text then (extractAmounts text).total.getD 0 else 0

/-- The `matched_fields` counter of `_extract_invoice_data`: one increment
per populated check, the line-item check firing only when tables exist. -/
def matchedCount (text : List Char) (tables : List Grid) : Nat :=
  (if extractInvoiceNumber text ≠ [] then 1 else 0) +
  (if extractDate text ≠ [] then 1 else 0) +
  (if (extractTaxIds text).length ≥ 1 then 1 else 0) +
  (if (extractTaxIds text).length ≥ 2 then 1 else 0) +
  (if (extractCompanyNames text).length ≥ 1 then 1 else 0) +
  (if (extractCompanyNames text).length ≥ 2 then 1 else 0) +
  (if amountsTruthy text ∧ totalAmountOf text > 0 then 1 else 0) +
  (if tables ≠ [] ∧ extractItemsFromTables tables ≠ [] then 1 else 0)

/-- `len(expected_fields)`: seven fixed checks, plus the line-item check
exactly when at least one table grid was supplied. -/
def totalFieldsCount (tables : List Grid) : Nat :=
  7 + (if tables ≠ [] then 1 else 0)

/-- `_extract_invoice_data`: run every extractor, count the matched fields of
the dynamic checklist, and divide by the checklist size. -/
def extractInvoiceData (pdf : PDFContentM) : InvoiceData :=
  let text := pdf.raw_text
  let ids := extractTaxIds text
  let names := extractCompanyNames text
  { invoice_number := extractInvoiceNumber text
    invoice_date := extractDate text
    seller_id := ids.headD []
    buyer_id := (ids.drop 1).headD []
    seller_name := names.headD []
    buyer_name := (names.drop 1).headD []
    total_amount := totalAmountOf text
    tax_amount := if amountsTruthy text then (extractAmounts text).tax.getD 0 else 0
    subtotal := if amountsTruthy text then (extractAmounts text).subtotal.getD 0 else 0
    items := if pdf.tables ≠ [] then extractItemsFromTables pdf.tables else []
    confidence :=
      if totalFieldsCount pdf.tables > 0 then
        (matchedCount text pdf.tables : ℚ) / (totalFieldsCount pdf.tables : ℚ)
      else 0 }

/-- `extract_from_text`: wrap the text in a table-less document. -/
def extractFromText (text : List Char) : InvoiceData :=
  extractInvoiceData ⟨text, []⟩

/-! ## Specification-side definitions and fixture inputs -/

/-- The commonly cited valid fixture identifier `53212539`. -/
def fixtureTaxId : List Char := "53212539".toList

/-- Eight fullwidth zeros: decimal digits for Python, but not ASCII. -/
def fullwidthZeros : List Char := "００００００００".toList

/-- A fully canonical zero-padded `YYYY/MM/DD` date (the claimed shape). -/
def isCanonicalYMD (l : List Char) : Bool :=
  match l with
  | [y1, y2, y3, y4, s1, m1, m2, s2, d1, d2] =>
    y1.isDigit && y2.isDigit && y3.isDigit && y4.isDigit && s1 == '/' &&
      m1.isDigit && m2.isDigit && s2 == '/' && d1.isDigit && d2.isDigit
  | _ => false

/-- Fixture: a local-calendar date with offset year 113. -/
def dateTW113 : List Char := "113年5月20日".toList

/-- Fixture: a hyphenated absolute-calendar date. -/
def dateHyphen2024 : List Char := "2024-05-20".toList

/-- Fixture: a local-calendar date with year 151, outside the offset range. -/
def dateTW151 : List Char := "151年5月20日".toList

/-- Fixture: a slash-separated absolute-calendar date. -/
def slashDateText : List Char := "2024/05/20".toList

def out2024 : List Char := "2024/05/20".toList

def out151 : List Char := "151/05/20".toList

def out1935 : List Char := "1935/05/20".toList

def grp113 : List Char := "113".toList

def grp5 : List Char := "5".toList

def grp024 : List Char := "024".toList

def grp05 : List Char := "05".toList

def grp20 : List Char := "20".toList

/-- Specification-side deduplication keeping the first occurrence of each
element. -/
def firstDedup : List (List Char) → List (List Char)
  | [] => []
  | a :: l => a :: firstDedup (l.filter (fun x => x ≠ a))
termination_by l => l.length
decreasing_by
  simp only [List.length_cons]
  exact Nat.lt_succ_of_le (List.length_filter_le _ _)

/-- Specification-side count of populated checklist fields of an assembled
record: a text field is populated when nonempty, the total amount when
nonzero, and the line items (counted only when tables were supplied) when
nonempty. -/
def populatedCount (inv : InvoiceData) (tables : List Grid) : Nat :=
  (if inv.invoice_number ≠ [] then 1 else 0) +
  (if inv.invoice_date ≠ [] then 1 else 0) +
  (if inv.seller_id ≠ [] then 1 else 0) +
  (if inv.buyer_id ≠ [] then 1 else 0) +
  (if inv.seller_name ≠ [] then 1 else 0) +
  (if inv.buyer_name ≠ [] then 1 else 0) +
  (if inv.total_amount ≠ 0 then 1 else 0) +
  (if tables ≠ [] ∧ inv.items ≠ [] then 1 else 0)

/-- Fixture text for the amount resolver. -/
def amountsFixture : List Char := "合計 1,050 稅額 50".toList

/-- Fixture text containing two valid identifiers. -/
def taxIdsFixtureText : List Char := "統編: 53212539 12345676".toList

/-- End-to-end fixture: invoice number, date, two valid identifiers and a
total, but no company names. -/
def endToEndText : List Char :=
  "AB-12345678 統編 53212539 12345676 發票日期 113年5月20日 合計 1,050 稅額 50".toList

/-- Fixture grid: a title row precedes the header row; one data row is
complete, one has an empty name (skipped), one has unparsable numeric cells
(kept with defaults), one has no name cell (skipped). -/
def titleRowGrid : Grid :=
  [ [some ("發票明細".toList), none],
    [some ("品名".toList), some ("數量".toList), some ("單價".toList), some ("金額".toList)],
    [some ("Widget".toList), some ("2".toList), some ("30".toList), some ("60".toList)],
    [some ("".toList), some ("5".toList), some ("5".toList), some ("25".toList)],
    [some ("Gadget".toList), some ("x".toList), some ("y".toList), some ("z".toList)],
    [none, some ("9".toList)] ]

/-- The fully parsed item of `titleRowGrid`. -/
def widgetItem : InvoiceItem := ⟨"Widget".toList, 2, 30, 60⟩

/-- The defaulted item of `titleRowGrid` (all numeric cells unparsable). -/
def gadgetItem : InvoiceItem := ⟨"Gadget".toList, 1, 0, 0⟩

/-- The data row of `titleRowGrid` with unparsable numeric cells. -/
def gadgetRow : Row :=
  [some ("Gadget".toList), some ("x".toList), some ("y".toList), some ("z".toList)]

/-- Fixture grid whose amount cell holds a negative number. -/
def negAmountGrid : Grid :=
  [ [some ("品名".toList), some ("金額".toList)],
    [some ("x".toList), some ("-5".toList)] ]

/-! ## Lemmas about the checksum validator -/

theorem digits_sum_small {p : Nat} (hp : p < 100) :
    (Nat.digits 10 p).sum = foldDigits p := by
  rcases Nat.eq_zero_or_pos p with h0 | h0
  · subst h0; simp [foldDigits]
  rw [Nat.digits_def' (by norm_num : 1 < 10) h0]
  rcases Nat.eq_zero_or_pos (p / 10) with h1 | h1
  · simp [h1, foldDigits]
  rw [Nat.digits_def' (by norm_num : 1 < 10) h1]
  have h2 : p / 10 / 10 = 0 := by omega
  simp [h2, foldDigits]
  omega

theorem toNat_le_of_isDigit {c : Char} (h : c.isDigit = true) : c.toNat ≤ 57 := by
  simp only [Char.isDigit, Bool.and_eq_true, decide_eq_true_eq] at h
  exact UInt32.toNat_le_of_le (by norm_num) h.2

theorem pyDigitVal_le {c : Char} (hc : pyIsDigit c = true) : pyDigitVal c ≤ 9 := by
  unfold pyIsDigit at hc
  unfold pyDigitVal
  split
  · rename_i hd
    have := toNat_le_of_isDigit hd
    have h0 : '0'.toNat = 48 := rfl
    omega
  · rename_i hd
    simp only [hd, Bool.false_or, Bool.and_eq_true, decide_eq_true_eq] at hc
    omega

/-- On an 8-character digit string the code's folded total coincides with the
specification's digit-sum total. -/
theorem taxIdTotal_eq_spec {l : List Char} (hlen : l.length = 8)
    (hdig : l.all pyIsDigit = true) : taxIdTotal l = specChecksum l := by
  match l, hlen with
  | [a, b, c, d, e, f, g, h], _ =>
    simp only [List.all_cons, Bool.and_eq_true, List.all_nil] at hdig
    obtain ⟨ha, hb, hc, hd, he, hf, hg, hh, -⟩ := hdig
    simp only [taxIdTotal, specChecksum, taxWeights, List.zipWith, List.sum_cons,
      List.sum_nil, Finset.sum_range_succ, Finset.sum_range_zero]
    norm_num [List.getD]
    rw [digits_sum_small (p := pyDigitVal a) (by have := pyDigitVal_le ha; omega),
      digits_sum_small (p := pyDigitVal b * 2) (by have := pyDigitVal_le hb; omega),
      digits_sum_small (p := pyDigitVal c) (by have := pyDigitVal_le hc; omega),
      digits_sum_small (p := pyDigitVal d * 2) (by have := pyDigitVal_le hd; omega),
      digits_sum_small (p := pyDigitVal e) (by have := pyDigitVal_le he; omega),
      digits_sum_small (p := pyDigitVal f * 2) (by have := pyDigitVal_le hf; omega),
      digits_sum_small (p := pyDigitVal g * 4) (by have := pyDigitVal_le hg; omega),
      digits_sum_small (p := pyDigitVal h) (by have := pyDigitVal_le hh; omega)]
    ring

/-- The validator, characterised with the code's own total. -/
theorem isValid_code_iff (l : List Char) :
    isValidTaiwanTaxId l = true ↔
      l.length = 8 ∧ l.all pyIsDigit = true ∧
        (taxIdTotal l % 10 = 0 ∨
          (l.getD 6 ' ' = '7' ∧ (taxIdTotal l + 1) % 10 = 0)) := by
  unfold isValidTaiwanTaxId
  by_cases hlen : l.length = 8
  · by_cases hdig : l.all pyIsDigit = true
    · have houter : ¬((decide (l.length ≠ 8) || !l.all pyIsDigit) = true) := by
        simp [hlen, hdig]
      rw [if_neg houter]
      dsimp only
      split_ifs with h1 h2
      · constructor
        · intro _
          exact ⟨hlen, hdig, Or.inl h1⟩
        · intro _
          rfl
      · simp only [Bool.and_eq_true, decide_eq_true_eq] at h2
        constructor
        · intro _
          exact ⟨hlen, hdig, Or.inr h2⟩
        · intro _
          rfl
      · simp only [Bool.and_eq_true, decide_eq_true_eq, not_and] at h2
        constructor
        · intro h
          cases h
        · rintro ⟨-, -, h | ⟨ha, hb⟩⟩
          · exact absurd h h1
          · exact absurd hb (h2 ha)
    · have houter : (decide (l.length ≠ 8) || !l.all pyIsDigit) = true := by
        simp [hdig]
      rw [if_pos houter]
      constructor
      · intro h
        cases h
      · rintro ⟨-, h, -⟩
        exact absurd h hdig
  · have houter : (decide (l.length ≠ 8) || !l.all pyIsDigit) = true := by
      simp [hlen]
    rw [if_pos houter]
    constructor
    · intro h
      cases h
    · rintro ⟨h, -, -⟩
      exact absurd h hlen

/-- The validator, characterised with the specification's digit-sum total. -/
theorem isValid_spec_iff (l : List Char) :
    isValidTaiwanTaxId l = true ↔
      l.length = 8 ∧ l.all pyIsDigit = true ∧
        (specChecksum l % 10 = 0 ∨
          (l.getD 6 ' ' = '7' ∧ (specChecksum l + 1) % 10 = 0)) := by
  rw [isValid_code_iff]
  constructor
  · rintro ⟨h1, h2, h3⟩
    refine ⟨h1, h2, ?_⟩
    rw [← taxIdTotal_eq_spec h1 h2]
    exact h3
  · rintro ⟨h1, h2, h3⟩
    refine ⟨h1, h2, ?_⟩
    rw [taxIdTotal_eq_spec h1 h2]
    exact h3

/-- C1, counterexample to the claim as stated: the validator accepts a string
of eight fullwidth digits, which is not a string of eight ASCII digits, so
acceptance is not equivalent to "8 ASCII digits plus checksum". -/
theorem C1_counterexample :
    isValidTaiwanTaxId fullwidthZeros = true ∧
      fullwidthZeros.all Char.isDigit = false := by decide

set_option maxRecDepth 4000 in
/-- C1 (amended): the validator accepts `s` iff `s` is exactly 8 decimal
digits (any Unicode decimal digits, per Python's `str.isdigit`, not only
ASCII) and the weighted digit-sum total satisfies `total % 10 == 0`, or the
digit at 0-indexed position 6 is `7` and `(total + 1) % 10 == 0`.  It accepts
the fixture `53212539` and rejects every single-ASCII-digit mutation of it
that does not hit the position-6-equals-7 special rule. -/
theorem C1_taxid_checksum :
    (∀ l : List Char, isValidTaiwanTaxId l = true ↔
        l.length = 8 ∧ l.all pyIsDigit = true ∧
          (specChecksum l % 10 = 0 ∨
            (l.getD 6 ' ' = '7' ∧ (specChecksum l + 1) % 10 = 0))) ∧
      isValidTaiwanTaxId fixtureTaxId = true ∧
      (∀ i : Fin 8, ∀ d : Fin 10,
        fixtureTaxId.set i (Char.ofNat (48 + d)) ≠ fixtureTaxId →
        specialRuleHits (fixtureTaxId.set i (Char.ofNat (48 + d))) = false →
        isValidTaiwanTaxId (fixtureTaxId.set i (Char.ofNat (48 + d))) = false) :=
  ⟨isValid_spec_iff, by decide, by decide⟩

/-- C1, witness: the mutation of the fixture at position 0 to digit `6` is
rejected, by the theorem. -/
theorem C1_taxid_checksum_witness :
    isValidTaiwanTaxId (fixtureTaxId.set 0 (Char.ofNat (48 + 6))) = false :=
  C1_taxid_checksum.2.2 0 6 (by decide) (by decide)

/-! ## Lemmas about the regex matchers and dates; claims C3, C4, C10 -/

theorem digitsPrefix_some {l : List Char} {k : Nat} {ds r : List Char}
    (h : digitsPrefix l k = some (ds, r)) :
    ds = l.take k ∧ ds.length = k ∧ ds.all pyIsDigit = true ∧ r = l.drop k := by
  unfold digitsPrefix at h
  dsimp only at h
  split at h
  · rename_i hcond
    simp only [Option.some_inj, Prod.mk.injEq] at h
    obtain ⟨h1, h2⟩ := h
    subst h1
    subst h2
    simp only [Bool.and_eq_true, decide_eq_true_eq] at hcond
    exact ⟨rfl, hcond.1, hcond.2, rfl⟩
  · cases h

theorem option_orElse_some {α : Type} {a : Option α} {f : Unit → Option α} {x : α}
    (h : a.orElse f = some x) : a = some x ∨ f () = some x := by
  cases a
  · right
    simpa [Option.orElse] using h
  · left
    simpa [Option.orElse] using h

theorem tryTWDay_some {r ds : List Char} (h : tryTWDay r = some ds) :
    1 ≤ ds.length ∧ ds.length ≤ 2 ∧ ds.all pyIsDigit = true := by
  unfold tryTWDay at h
  split at h
  · rename_i p hp
    obtain ⟨-, hl, hd, -⟩ := digitsPrefix_some hp
    cases h
    exact ⟨by omega, by omega, hd⟩
  · split at h
    · rename_i p hp
      obtain ⟨-, hl, hd, -⟩ := digitsPrefix_some hp
      cases h
      exact ⟨by omega, by omega, hd⟩
    · cases h

theorem tryTWMonth_some {l : List Char} {k : Nat} {ms ds : List Char}
    (hk : k ≤ 2) (h : tryTWMonth l k = some (ms, ds)) :
    ms.length ≤ 2 ∧ ms.all pyIsDigit = true ∧
      1 ≤ ds.length ∧ ds.length ≤ 2 ∧ ds.all pyIsDigit = true := by
  unfold tryTWMonth at h
  split at h
  · rename_i p hp
    obtain ⟨-, hl, hd, -⟩ := digitsPrefix_some hp
    split at h
    · rw [Option.map_eq_some'] at h
      obtain ⟨dds, hdds, heq⟩ := h
      injection heq with hA hB
      subst hA
      subst hB
      obtain ⟨d1, d2, d3⟩ := tryTWDay_some hdds
      exact ⟨by omega, hd, d1, d2, d3⟩
    · cases h
  · cases h

theorem matchTWMonthDay_some {l ms ds : List Char}
    (h : matchTWMonthDay l = some (ms, ds)) :
    ms.length ≤ 2 ∧ ms.all pyIsDigit = true ∧
      1 ≤ ds.length ∧ ds.length ≤ 2 ∧ ds.all pyIsDigit = true := by
  rcases option_orElse_some h with h2 | h1
  · exact tryTWMonth_some (by norm_num) h2
  · exact tryTWMonth_some (by norm_num) h1

theorem tryTWYear_some {l : List Char} {k : Nat} {ys ms ds : List Char}
    (h : tryTWYear l k = some (ys, ms, ds)) :
    ys.length = k ∧ ys.all pyIsDigit = true ∧
      ms.length ≤ 2 ∧ ms.all pyIsDigit = true ∧
      1 ≤ ds.length ∧ ds.length ≤ 2 ∧ ds.all pyIsDigit = true := by
  unfold tryTWYear at h
  split at h
  · rename_i p hp
    obtain ⟨-, hl, hd, -⟩ := digitsPrefix_some hp
    split at h
    · rw [Option.map_eq_some'] at h
      obtain ⟨pp, hpp, heq⟩ := h
      injection heq with hA hB
      subst hA
      have : (pp.1, pp.2) = (ms, ds) := by
        rw [← hB]
      injection this with hC hD
      subst hC
      subst hD
      obtain ⟨m1, m2, m3, m4, m5⟩ := matchTWMonthDay_some (by
        rw [hpp])
      exact ⟨hl, hd, m1, m2, m3, m4, m5⟩
    · cases h
  · cases h

theorem matchDateTWAt_some {l ys ms ds : List Char}
    (h : matchDateTWAt l = some (ys, ms, ds)) :
    2 ≤ ys.length ∧ ys.length ≤ 3 ∧ ys.all pyIsDigit = true ∧
      ms.length ≤ 2 ∧ ms.all pyIsDigit = true ∧
      1 ≤ ds.length ∧ ds.length ≤ 2 ∧ ds.all pyIsDigit = true := by
  rcases option_orElse_some h with h3 | h2
  · obtain ⟨y1, rest⟩ := tryTWYear_some h3
    exact ⟨by omega, by omega, rest⟩
  · obtain ⟨y1, rest⟩ := tryTWYear_some h2
    exact ⟨by omega, by omega, rest⟩

theorem tryWDay_some {r ds : List Char} (h : tryWDay r = some ds) :
    1 ≤ ds.length ∧ ds.length ≤ 2 ∧ ds.all pyIsDigit = true := by
  unfold tryWDay at h
  split at h
  · rename_i p hp
    obtain ⟨-, hl, hd, -⟩ := digitsPrefix_some hp
    cases h
    exact ⟨by omega, by omega, hd⟩
  · rw [Option.map_eq_some'] at h
    obtain ⟨p, hp, heq⟩ := h
    have hp' : digitsPrefix r 1 = some (p.1, p.2) := by rw [hp]
    obtain ⟨-, hl, hd, -⟩ := digitsPrefix_some hp'
    subst heq
    exact ⟨by omega, by omega, hd⟩

theorem tryWMonth_some {r : List Char} {k : Nat} {ms ds : List Char}
    (hk : k ≤ 2) (h : tryWMonth r k = some (ms, ds)) :
    ms.length ≤ 2 ∧ ms.all pyIsDigit = true ∧
      1 ≤ ds.length ∧ ds.length ≤ 2 ∧ ds.all pyIsDigit = true := by
  unfold tryWMonth at h
  split at h
  · rename_i p hp
    obtain ⟨-, hl, hd, -⟩ := digitsPrefix_some hp
    split at h
    · rw [Option.map_eq_some'] at h
      obtain ⟨dds, hdds, heq⟩ := h
      injection heq with hA hB
      subst hA
      subst hB
      obtain ⟨d1, d2, d3⟩ := tryWDay_some hdds
      exact ⟨by omega, hd, d1, d2, d3⟩
    · cases h
  · cases h

theorem matchDateWesternAt_some {l ys ms ds : List Char}
    (h : matchDateWesternAt l = some (ys, ms, ds)) :
    ys.length = 4 ∧ ys.all pyIsDigit = true ∧
      ms.length ≤ 2 ∧ ms.all pyIsDigit = true ∧
      1 ≤ ds.length ∧ ds.length ≤ 2 ∧ ds.all pyIsDigit = true := by
  unfold matchDateWesternAt at h
  split at h
  · rename_i p hp
    obtain ⟨-, hl, hd, -⟩ := digitsPrefix_some hp
    split at h
    · rw [Option.map_eq_some'] at h
      obtain ⟨pp, hpp, heq⟩ := h
      injection heq with hA hB
      subst hA
      have hB' : (pp.1, pp.2) = (ms, ds) := by rw [← hB]
      injection hB' with hC hD
      subst hC
      subst hD
      rcases option_orElse_some hpp with h2 | h1
      · obtain ⟨m1, m2, m3, m4, m5⟩ := tryWMonth_some (by norm_num) h2
        exact ⟨hl, hd, m1, m2, m3, m4, m5⟩
      · obtain ⟨m1, m2, m3, m4, m5⟩ := tryWMonth_some (by norm_num) h1
        exact ⟨hl, hd, m1, m2, m3, m4, m5⟩
    · cases h
  · cases h

theorem reSearchPos_some {α : Type} {m : List Char → Option α} {l : List Char}
    {i : Nat} {g : α} (h : reSearchPos m l = some (i, g)) :
    ∃ s, m s = some g := by
  induction l generalizing i with
  | nil =>
    rw [reSearchPos, Option.map_eq_some'] at h
    obtain ⟨r, hr, heq⟩ := h
    injection heq with h1 h2
    subst h2
    exact ⟨[], hr⟩
  | cons c rest ih =>
    rw [reSearchPos] at h
    split at h
    · rename_i r hr
      injection h with h1
      injection h1 with h2 h3
      subst h3
      exact ⟨c :: rest, hr⟩
    · rw [Option.map_eq_some'] at h
      obtain ⟨p, hp, heq⟩ := h
      injection heq with h1 h2
      subst h2
      obtain ⟨s, hs⟩ := ih (i := p.1) (by rw [hp])
      exact ⟨s, hs⟩

theorem reSearch_some {α : Type} {m : List Char → Option α} {l : List Char}
    {g : α} (h : reSearch m l = some g) : ∃ s, m s = some g := by
  unfold reSearch at h
  rw [Option.map_eq_some'] at h
  obtain ⟨p, hp, heq⟩ := h
  subst heq
  obtain ⟨i, g'⟩ := p
  exact reSearchPos_some hp

theorem pyStrToNat_lt_100 {l : List Char} (h1 : l.length ≤ 2)
    (hd : l.all pyIsDigit = true) : pyStrToNat l < 100 := by
  match l, h1 with
  | [], _ => simp [pyStrToNat]
  | [a], _ =>
    simp only [List.all_cons, List.all_nil, Bool.and_eq_true] at hd
    have := pyDigitVal_le hd.1
    simp only [pyStrToNat, List.foldl]
    omega
  | [a, b], _ =>
    simp only [List.all_cons, List.all_nil, Bool.and_eq_true] at hd
    have := pyDigitVal_le hd.1
    have := pyDigitVal_le hd.2.1
    simp only [pyStrToNat, List.foldl]
    omega

theorem pyIsDigit_digitChar {r : Nat} (h : r < 10) :
    pyIsDigit (Char.ofNat (48 + r)) = true := by
  interval_cases r <;> decide

theorem natCharsCore_spec : ∀ fuel n : Nat, ∀ acc : List Char, n < fuel →
    ∃ ds, natCharsCore fuel n acc = ds ++ acc ∧ ds ≠ [] ∧ ds.all pyIsDigit = true := by
  intro fuel
  induction fuel with
  | zero => intro n acc h; omega
  | succ fuel ih =>
    intro n acc h
    rw [natCharsCore]
    split
    · exact ⟨[Char.ofNat (48 + n % 10)], rfl, by simp,
        by simp [List.all_cons, pyIsDigit_digitChar (Nat.mod_lt _ (by norm_num))]⟩
    · rename_i hge
      have hn : n / 10 < fuel := by omega
      obtain ⟨ds, hds, hne, hdig⟩ := ih (n / 10) (Char.ofNat (48 + n % 10) :: acc) hn
      refine ⟨ds ++ [Char.ofNat (48 + n % 10)], ?_, by simp, ?_⟩
      · rw [hds]
        simp
      · simp only [List.all_append, Bool.and_eq_true]
        exact ⟨hdig, by simp [pyIsDigit_digitChar (Nat.mod_lt _ (by norm_num))]⟩

theorem natChars_spec (n : Nat) :
    natChars n ≠ [] ∧ (natChars n).all pyIsDigit = true := by
  obtain ⟨ds, hds, hne, hdig⟩ := natCharsCore_spec (n + 1) n [] (by omega)
  unfold natChars
  rw [hds]
  rw [List.append_nil]
  exact ⟨hne, hdig⟩

theorem pad2_length : ∀ m : Nat, m < 100 → (pad2 m).length = 2 := by decide

theorem pad2_digits : ∀ m : Nat, m < 100 → (pad2 m).all pyIsDigit = true := by decide


theorem C3_date_priority :
    (∀ text ys ms ds : List Char, reSearch matchDateTWAt text = some (ys, ms, ds) →
      extractDate text =
        (if 1 ≤ pyStrToNat ys ∧ pyStrToNat ys ≤ 150 then natChars (pyStrToNat ys + 1911)
          else natChars (pyStrToNat ys)) ++
          '/' :: (pad2 (pyStrToNat ms) ++ '/' :: pad2 (pyStrToNat ds))) ∧
    (∀ text : List Char, reSearch matchDateTWAt text = none →
      extractDate text =
        match reSearch matchDateWesternAt text with
        | some (ys, ms, ds) =>
          ys ++ '/' :: (pad2 (pyStrToNat ms) ++ '/' :: pad2 (pyStrToNat ds))
        | none => []) ∧
    extractDate dateTW113 = out2024 ∧
    extractDate dateHyphen2024 = out2024 ∧
    extractDate dateTW151 = out151 := by
  refine ⟨?_, ?_, by decide, by decide, by decide⟩
  · intro text ys ms ds h
    unfold extractDate
    rw [h]
    by_cases hc : 1 ≤ pyStrToNat ys ∧ pyStrToNat ys ≤ 150
    · simp [hc]
    · simp [hc]
  · intro text h
    unfold extractDate
    rw [h]

theorem C3_date_priority_witness :
    extractDate dateTW113 = out2024 :=
  (C3_date_priority.1 dateTW113 grp113 grp5 grp20 (by decide)).trans (by decide)

theorem C4_counterexample :
    extractDate dateTW151 ≠ [] ∧ isCanonicalYMD (extractDate dateTW151) = false := by
  decide

theorem C4_date_shape (text : List Char) :
    extractDate text = [] ∨
      ∃ (yp : List Char) (m d : Nat),
        extractDate text = yp ++ '/' :: (pad2 m ++ '/' :: pad2 d) ∧
          m < 100 ∧ d < 100 ∧ (pad2 m).length = 2 ∧ (pad2 d).length = 2 ∧
          yp ≠ [] ∧ yp.all pyIsDigit = true := by
  unfold extractDate
  cases htw : reSearch matchDateTWAt text with
  | some g =>
    obtain ⟨ys, ms, ds⟩ := g
    right
    obtain ⟨s, hs⟩ := reSearch_some htw
    obtain ⟨-, -, -, m2, m3, -, d2, d3⟩ := matchDateTWAt_some hs
    have hm := pyStrToNat_lt_100 m2 m3
    have hd := pyStrToNat_lt_100 d2 d3
    refine ⟨natChars (if 1 ≤ pyStrToNat ys ∧ pyStrToNat ys ≤ 150 then pyStrToNat ys + 1911
        else pyStrToNat ys), pyStrToNat ms, pyStrToNat ds, rfl, hm, hd,
      pad2_length _ hm, pad2_length _ hd, (natChars_spec _).1, (natChars_spec _).2⟩
  | none =>
    cases hw : reSearch matchDateWesternAt text with
    | some g =>
      obtain ⟨ys, ms, ds⟩ := g
      right
      obtain ⟨s, hs⟩ := reSearch_some hw
      obtain ⟨y1, y2, m2, m3, -, d2, d3⟩ := matchDateWesternAt_some hs
      have hm := pyStrToNat_lt_100 m2 m3
      have hd := pyStrToNat_lt_100 d2 d3
      refine ⟨ys, pyStrToNat ms, pyStrToNat ds, rfl, hm, hd,
        pad2_length _ hm, pad2_length _ hd, ?_, y2⟩
      intro hcon
      rw [hcon] at y1
      simp at y1
    | none => exact Or.inl rfl


theorem C10_tw_hijacks_slash_date :
    reSearchPos matchDateTWAt slashDateText = some (1, grp024, grp05, grp20) ∧
      pyStrToNat grp024 = 24 ∧ (1 ≤ 24 ∧ 24 ≤ 150) ∧
      extractDate slashDateText = out1935 ∧
      extractDate slashDateText ≠ slashDateText := by
  refine ⟨by decide, by decide, by norm_num, by decide, by decide⟩


/-! ## Lemmas about identifier extraction; claims C6, C9 -/

theorem firstDedup_subset {x : List Char} : ∀ {l : List (List Char)},
    x ∈ firstDedup l → x ∈ l := by
  intro l
  induction l using firstDedup.induct with
  | case1 =>
    intro h
    rw [firstDedup] at h
    cases h
  | case2 a l ih =>
    intro h
    rw [firstDedup] at h
    rcases List.mem_cons.mp h with h | h
    · subst h
      exact List.mem_cons_self _ _
    · exact List.mem_cons_of_mem _ (List.mem_of_mem_filter (ih h))

theorem firstDedup_nodup : ∀ l : List (List Char), (firstDedup l).Nodup := by
  intro l
  induction l using firstDedup.induct with
  | case1 => simp [firstDedup]
  | case2 a l ih =>
    rw [firstDedup]
    refine List.nodup_cons.mpr ⟨?_, ih⟩
    intro hmem
    have := firstDedup_subset hmem
    rw [List.mem_filter] at this
    simp at this

theorem taxFold_eq (ms : List (List Char)) : ∀ acc : List (List Char),
    List.foldl
        (fun acc m => if isValidTaiwanTaxId m && !(acc.contains m) then acc ++ [m] else acc)
        acc ms
      = acc ++ firstDedup (ms.filter (fun m => isValidTaiwanTaxId m && !(acc.contains m))) := by
  induction ms with
  | nil =>
    intro acc
    simp [firstDedup]
  | cons m rest ih =>
    intro acc
    rw [List.foldl_cons]
    by_cases hm : (isValidTaiwanTaxId m && !(acc.contains m)) = true
    · rw [show List.filter (fun m => isValidTaiwanTaxId m && !(acc.contains m)) (m :: rest)
            = m :: List.filter (fun m => isValidTaiwanTaxId m && !(acc.contains m)) rest by
          simp only [List.filter_cons, hm, if_true]]
      rw [firstDedup]
      rw [if_pos hm, ih (acc ++ [m])]
      rw [List.append_assoc]
      congr 1
      rw [List.singleton_append]
      congr 1
      rw [List.filter_filter]
      congr 1
      apply List.filter_congr
      intro x hx
      simp only [List.contains, List.elem_eq_mem, List.mem_append, List.mem_singleton]
      by_cases hv : isValidTaiwanTaxId x = true <;> by_cases hin : x ∈ acc <;>
        by_cases hxm : x = m <;>
        simp [hv, hin, hxm]
    · rw [show List.filter (fun m => isValidTaiwanTaxId m && !(acc.contains m)) (m :: rest)
            = List.filter (fun m => isValidTaiwanTaxId m && !(acc.contains m)) rest by
          rw [Bool.not_eq_true] at hm
          simp only [List.filter_cons, hm]
          simp]
      rw [if_neg hm, ih acc]

theorem extractTaxIds_eq (text : List Char) :
    extractTaxIds text =
      (firstDedup ((findTaxIdCandidates text).filter isValidTaiwanTaxId)).take 2 := by
  unfold extractTaxIds
  rw [taxFold_eq]
  have hp : (fun m => isValidTaiwanTaxId m && !(([] : List (List Char)).contains m))
      = (fun m => isValidTaiwanTaxId m) := by
    funext m
    simp [List.contains]
  rw [hp]
  rw [List.nil_append]

theorem extractTaxIds_valid {text x : List Char} (hx : x ∈ extractTaxIds text) :
    isValidTaiwanTaxId x = true := by
  rw [extractTaxIds_eq] at hx
  have h1 : x ∈ firstDedup ((findTaxIdCandidates text).filter isValidTaiwanTaxId) :=
    List.take_subset _ _ hx
  exact (List.mem_filter.mp (firstDedup_subset h1)).2

theorem extractTaxIds_nodup (text : List Char) : (extractTaxIds text).Nodup := by
  rw [extractTaxIds_eq]
  exact List.Nodup.sublist (List.take_sublist _ _) (firstDedup_nodup _)

theorem seller_id_eq (pdf : PDFContentM) :
    (extractInvoiceData pdf).seller_id = (extractTaxIds pdf.raw_text).headD [] := rfl

theorem buyer_id_eq (pdf : PDFContentM) :
    (extractInvoiceData pdf).buyer_id = ((extractTaxIds pdf.raw_text).drop 1).headD [] := rfl

theorem C9_tax_id_pipeline :
    (∀ text x : List Char, x ∈ extractTaxIds text →
        isValidTaiwanTaxId x = true ∧ x.length = 8) ∧
      (∀ text : List Char,
        extractTaxIds text =
          (firstDedup ((findTaxIdCandidates text).filter isValidTaiwanTaxId)).take 2) ∧
      (∀ text : List Char, (extractTaxIds text).Nodup) ∧
      (∀ pdf : PDFContentM,
        (extractInvoiceData pdf).seller_id = (extractTaxIds pdf.raw_text).headD [] ∧
        (extractInvoiceData pdf).buyer_id = ((extractTaxIds pdf.raw_text).drop 1).headD [] ∧
        ((extractInvoiceData pdf).seller_id = [] ∨
          isValidTaiwanTaxId (extractInvoiceData pdf).seller_id = true) ∧
        ((extractInvoiceData pdf).buyer_id = [] ∨
          isValidTaiwanTaxId (extractInvoiceData pdf).buyer_id = true)) := by
  have hval : ∀ text x : List Char, x ∈ extractTaxIds text →
      isValidTaiwanTaxId x = true ∧ x.length = 8 := by
    intro text x hx
    have hv := extractTaxIds_valid hx
    exact ⟨hv, ((isValid_code_iff x).mp hv).1⟩
  refine ⟨hval, extractTaxIds_eq, extractTaxIds_nodup, ?_⟩
  intro pdf
  refine ⟨seller_id_eq pdf, buyer_id_eq pdf, ?_, ?_⟩
  · rw [seller_id_eq pdf]
    cases hids : extractTaxIds pdf.raw_text with
    | nil => exact Or.inl rfl
    | cons a rest =>
      right
      have : a ∈ extractTaxIds pdf.raw_text := by
        rw [hids]
        exact List.mem_cons_self _ _
      simpa using (hval _ _ this).1
  · rw [buyer_id_eq pdf]
    cases hids : extractTaxIds pdf.raw_text with
    | nil => exact Or.inl rfl
    | cons a rest =>
      cases rest with
      | nil => exact Or.inl rfl
      | cons b rest2 =>
        right
        have : b ∈ extractTaxIds pdf.raw_text := by
          rw [hids]
          exact List.mem_cons_of_mem _ (List.mem_cons_self _ _)
        simpa using (hval _ _ this).1

theorem C9_tax_id_pipeline_witness :
    isValidTaiwanTaxId fixtureTaxId = true ∧ fixtureTaxId.length = 8 :=
  C9_tax_id_pipeline.1 taxIdsFixtureText fixtureTaxId (by decide)

theorem C6_subtotal_derivation :
    (∀ text : List Char, searchAmountToken subtotalKeywords text = none →
      ∀ tv xv : ℚ, (extractAmounts text).total = some tv →
        (extractAmounts text).tax = some xv →
        (extractAmounts text).subtotal = some (tv - xv)) ∧
      (extractAmounts amountsFixture).total = some 1050 ∧
      (extractAmounts amountsFixture).tax = some 50 ∧
      (extractAmounts amountsFixture).subtotal = some 1000 := by
  refine ⟨?_, rfl, rfl, ?_⟩
  · intro text hs tv xv ht hx
    unfold extractAmounts at ht hx ⊢
    dsimp only at ht hx ⊢
    simp only [hs, Option.map_none', ht, hx]
  · have h : (extractAmounts amountsFixture).subtotal = some ((1050 : ℚ) - 50) := rfl
    rw [h]
    norm_num

theorem C6_subtotal_derivation_witness :
    (extractAmounts amountsFixture).subtotal = some ((1050 : ℚ) - 50) :=
  C6_subtotal_derivation.1 amountsFixture (by decide) 1050 50 rfl rfl


/-! ## Lemmas about the confidence score; claims C2, C7 -/

theorem iteNat_le_one (c : Prop) [Decidable c] : (if c then (1 : Nat) else 0) ≤ 1 := by
  split <;> omega

theorem ite_mono_of_imp {c d : Prop} [Decidable c] [Decidable d] (h : c → d) :
    (if c then (1 : Nat) else 0) ≤ if d then 1 else 0 := by
  by_cases hc : c
  · rw [if_pos hc, if_pos (h hc)]
  · rw [if_neg hc]
    split <;> omega

theorem parseAmount_nonneg (token : List Char) : 0 ≤ parseAmount token := by
  unfold parseAmount
  dsimp only
  split
  · norm_num
  · split
    · positivity
    · split
      · positivity
      · norm_num
    · norm_num

theorem extractAmounts_total_nonneg {text : List Char} {tv : ℚ}
    (h : (extractAmounts text).total = some tv) : 0 ≤ tv := by
  unfold extractAmounts at h
  dsimp only at h
  rw [Option.map_eq_some'] at h
  obtain ⟨tok, -, htv⟩ := h
  rw [← htv]
  exact parseAmount_nonneg tok

theorem totalAmountOf_nonneg (text : List Char) : 0 ≤ totalAmountOf text := by
  unfold totalAmountOf
  split
  · cases ht : (extractAmounts text).total with
    | none => simp
    | some tv =>
      simp only [Option.getD_some]
      exact extractAmounts_total_nonneg ht
  · norm_num

theorem headD_ne_nil_iff {l : List (List Char)} (h : ∀ x ∈ l, x ≠ []) :
    l.headD [] ≠ [] ↔ 1 ≤ l.length := by
  cases l with
  | nil => simp
  | cons a rest =>
    simp only [List.headD_cons, List.length_cons]
    constructor
    · intro _
      omega
    · intro _
      exact h a (List.mem_cons_self _ _)

theorem drop_headD_ne_nil_iff {l : List (List Char)} (h : ∀ x ∈ l, x ≠ []) :
    (l.drop 1).headD [] ≠ [] ↔ 2 ≤ l.length := by
  cases l with
  | nil => simp
  | cons a rest =>
    cases rest with
    | nil => simp
    | cons b rest2 =>
      simp only [List.drop_succ_cons, List.drop_zero, List.headD_cons, List.length_cons]
      constructor
      · intro _
        omega
      · intro _
        exact h b (List.mem_cons_of_mem _ (List.mem_cons_self _ _))

theorem extractTaxIds_ne_nil (text : List Char) : ∀ x ∈ extractTaxIds text, x ≠ [] := by
  intro x hx
  have h8 : x.length = 8 := ((isValid_code_iff x).mp (extractTaxIds_valid hx)).1
  intro hcon
  rw [hcon] at h8
  simp at h8

theorem namesFold_mem {x : List Char} : ∀ (ms : List (List Char)) (acc : List (List Char)),
    x ∈ ms.foldl
      (fun acc m => if m ≠ [] && !(acc.contains m) && m.length ≥ 2 then acc ++ [m] else acc)
      acc →
    x ∈ acc ∨ 2 ≤ x.length := by
  intro ms
  induction ms with
  | nil =>
    intro acc hx
    exact Or.inl hx
  | cons m rest ih =>
    intro acc hx
    rw [List.foldl_cons] at hx
    by_cases hc : (m ≠ [] && !(acc.contains m) && m.length ≥ 2) = true
    · rw [if_pos hc] at hx
      rcases ih (acc ++ [m]) hx with h | h
      · rcases List.mem_append.mp h with h | h
        · exact Or.inl h
        · right
          rw [List.mem_singleton] at h
          subst h
          simp only [Bool.and_eq_true, decide_eq_true_eq, ge_iff_le] at hc
          exact hc.2
      · exact Or.inr h
    · rw [if_neg hc] at hx
      exact ih acc hx

theorem extractCompanyNames_ne_nil (text : List Char) :
    ∀ x ∈ extractCompanyNames text, x ≠ [] := by
  intro x hx
  unfold extractCompanyNames at hx
  dsimp only at hx
  have hx2 := List.take_subset _ _ hx
  rcases namesFold_mem _ [] hx2 with h | h
  · cases h
  · intro hcon
    rw [hcon] at h
    simp at h

theorem matched_eq_populated (text : List Char) (tables : List Grid) :
    populatedCount (extractInvoiceData ⟨text, tables⟩) tables = matchedCount text tables := by
  have hids := extractTaxIds_ne_nil text
  have hnames := extractCompanyNames_ne_nil text
  have e1 : (if (extractInvoiceData ⟨text, tables⟩).invoice_number ≠ [] then (1 : Nat) else 0)
      = (if extractInvoiceNumber text ≠ [] then 1 else 0) := rfl
  have e2 : (if (extractInvoiceData ⟨text, tables⟩).invoice_date ≠ [] then (1 : Nat) else 0)
      = (if extractDate text ≠ [] then 1 else 0) := rfl
  have e3 : (if (extractInvoiceData ⟨text, tables⟩).seller_id ≠ [] then (1 : Nat) else 0)
      = (if (extractTaxIds text).length ≥ 1 then 1 else 0) :=
    if_congr (headD_ne_nil_iff hids) rfl rfl
  have e4 : (if (extractInvoiceData ⟨text, tables⟩).buyer_id ≠ [] then (1 : Nat) else 0)
      = (if (extractTaxIds text).length ≥ 2 then 1 else 0) :=
    if_congr (drop_headD_ne_nil_iff hids) rfl rfl
  have e5 : (if (extractInvoiceData ⟨text, tables⟩).seller_name ≠ [] then (1 : Nat) else 0)
      = (if (extractCompanyNames text).length ≥ 1 then 1 else 0) :=
    if_congr (headD_ne_nil_iff hnames) rfl rfl
  have e6 : (if (extractInvoiceData ⟨text, tables⟩).buyer_name ≠ [] then (1 : Nat) else 0)
      = (if (extractCompanyNames text).length ≥ 2 then 1 else 0) :=
    if_congr (drop_headD_ne_nil_iff hnames) rfl rfl
  have iff7 : totalAmountOf text ≠ 0 ↔ (amountsTruthy text = true ∧ totalAmountOf text > 0) := by
    constructor
    · intro h
      by_cases ha : amountsTruthy text = true
      · refine ⟨ha, lt_of_le_of_ne (totalAmountOf_nonneg text) (Ne.symm h)⟩
      · exfalso
        apply h
        unfold totalAmountOf
        rw [if_neg ha]
    · rintro ⟨-, h⟩
      exact ne_of_gt h
  have e7 : (if (extractInvoiceData ⟨text, tables⟩).total_amount ≠ 0 then (1 : Nat) else 0)
      = (if amountsTruthy text ∧ totalAmountOf text > 0 then 1 else 0) :=
    if_congr iff7 rfl rfl
  have iff8 : (tables ≠ [] ∧ (extractInvoiceData ⟨text, tables⟩).items ≠ []) ↔
      (tables ≠ [] ∧ extractItemsFromTables tables ≠ []) := by
    by_cases ht : tables = []
    · simp [ht]
    · have hitems : (extractInvoiceData ⟨text, tables⟩).items = extractItemsFromTables tables := by
        show (if tables ≠ [] then extractItemsFromTables tables else []) = _
        rw [if_pos ht]
      rw [hitems]
  have e8 : (if tables ≠ [] ∧ (extractInvoiceData ⟨text, tables⟩).items ≠ [] then (1 : Nat) else 0)
      = (if tables ≠ [] ∧ extractItemsFromTables tables ≠ [] then 1 else 0) :=
    if_congr iff8 rfl rfl
  unfold populatedCount matchedCount
  rw [e1, e2, e3, e4, e5, e6, e7, e8]

theorem confidence_formula (pdf : PDFContentM) :
    (extractInvoiceData pdf).confidence =
      (populatedCount (extractInvoiceData pdf) pdf.tables : ℚ) /
        (totalFieldsCount pdf.tables : ℚ) := by
  obtain ⟨text, tables⟩ := pdf
  have hc : (extractInvoiceData ⟨text, tables⟩).confidence =
      if totalFieldsCount tables > 0 then
        (matchedCount text tables : ℚ) / (totalFieldsCount tables : ℚ)
      else 0 := rfl
  rw [hc, if_pos (by unfold totalFieldsCount; omega)]
  rw [matched_eq_populated]

theorem populatedCount_le (inv : InvoiceData) (tables : List Grid) :
    populatedCount inv tables ≤ totalFieldsCount tables := by
  unfold populatedCount totalFieldsCount
  have h1 := iteNat_le_one (inv.invoice_number ≠ [])
  have h2 := iteNat_le_one (inv.invoice_date ≠ [])
  have h3 := iteNat_le_one (inv.seller_id ≠ [])
  have h4 := iteNat_le_one (inv.buyer_id ≠ [])
  have h5 := iteNat_le_one (inv.seller_name ≠ [])
  have h6 := iteNat_le_one (inv.buyer_name ≠ [])
  have h7 := iteNat_le_one (inv.total_amount ≠ 0)
  have h8 : (if tables ≠ [] ∧ inv.items ≠ [] then (1 : Nat) else 0)
      ≤ if tables ≠ [] then 1 else 0 :=
    ite_mono_of_imp And.left
  omega

theorem confidence_bounds (pdf : PDFContentM) :
    0 ≤ (extractInvoiceData pdf).confidence ∧ (extractInvoiceData pdf).confidence ≤ 1 := by
  rw [confidence_formula]
  constructor
  · positivity
  · rw [div_le_one (by unfold totalFieldsCount; positivity)]
    exact_mod_cast populatedCount_le _ _

theorem C2_confidence_checklist :
    (∀ pdf : PDFContentM,
        (extractInvoiceData pdf).confidence =
          (populatedCount (extractInvoiceData pdf) pdf.tables : ℚ) /
            (totalFieldsCount pdf.tables : ℚ) ∧
        totalFieldsCount pdf.tables = 7 + (if pdf.tables ≠ [] then 1 else 0) ∧
        0 ≤ (extractInvoiceData pdf).confidence ∧
        (extractInvoiceData pdf).confidence ≤ 1) ∧
      (extractInvoiceData ⟨endToEndText, []⟩).confidence = 5 / 7 := by
  refine ⟨?_, rfl⟩
  intro pdf
  exact ⟨confidence_formula pdf, rfl, (confidence_bounds pdf).1, (confidence_bounds pdf).2⟩

theorem C7_confidence_monotone (t1 t2 : List Char) (tables : List Grid)
    (h1 : (extractInvoiceData ⟨t1, tables⟩).invoice_number ≠ [] →
      (extractInvoiceData ⟨t2, tables⟩).invoice_number ≠ [])
    (h2 : (extractInvoiceData ⟨t1, tables⟩).invoice_date ≠ [] →
      (extractInvoiceData ⟨t2, tables⟩).invoice_date ≠ [])
    (h3 : (extractInvoiceData ⟨t1, tables⟩).seller_id ≠ [] →
      (extractInvoiceData ⟨t2, tables⟩).seller_id ≠ [])
    (h4 : (extractInvoiceData ⟨t1, tables⟩).buyer_id ≠ [] →
      (extractInvoiceData ⟨t2, tables⟩).buyer_id ≠ [])
    (h5 : (extractInvoiceData ⟨t1, tables⟩).seller_name ≠ [] →
      (extractInvoiceData ⟨t2, tables⟩).seller_name ≠ [])
    (h6 : (extractInvoiceData ⟨t1, tables⟩).buyer_name ≠ [] →
      (extractInvoiceData ⟨t2, tables⟩).buyer_name ≠ [])
    (h7 : (extractInvoiceData ⟨t1, tables⟩).total_amount ≠ 0 →
      (extractInvoiceData ⟨t2, tables⟩).total_amount ≠ 0) :
    (extractInvoiceData ⟨t1, tables⟩).confidence ≤ (extractInvoiceData ⟨t2, tables⟩).confidence := by
  rw [confidence_formula, confidence_formula]
  rw [div_le_div_iff_of_pos_right (by unfold totalFieldsCount; positivity)]
  have hcount : populatedCount (extractInvoiceData ⟨t1, tables⟩) tables ≤
      populatedCount (extractInvoiceData ⟨t2, tables⟩) tables := by
    unfold populatedCount
    have g1 := ite_mono_of_imp h1
    have g2 := ite_mono_of_imp h2
    have g3 := ite_mono_of_imp h3
    have g4 := ite_mono_of_imp h4
    have g5 := ite_mono_of_imp h5
    have g6 := ite_mono_of_imp h6
    have g7 := ite_mono_of_imp h7
    have g8 : (if tables ≠ [] ∧ (extractInvoiceData ⟨t1, tables⟩).items ≠ [] then (1 : Nat) else 0)
        = (if tables ≠ [] ∧ (extractInvoiceData ⟨t2, tables⟩).items ≠ [] then 1 else 0) := rfl
    omega
  exact_mod_cast hcount

theorem C7_confidence_monotone_witness :
    (extractInvoiceData ⟨amountsFixture, []⟩).confidence ≤
      (extractInvoiceData ⟨endToEndText, []⟩).confidence :=
  C7_confidence_monotone amountsFixture endToEndText []
    (by decide) (by decide) (by decide) (by decide) (by decide) (by decide) (by decide)

/-! ## Lemmas about table extraction; claims C5, C8 -/

theorem processRow_none_iff (nameCol : Nat) (qtyCol priceCol amountCol : Option Nat) (row : Row) :
    processRow nameCol qtyCol priceCol amountCol row = none ↔
      (row = [] ∨ row.length ≤ nameCol ∨
        (if cellTruthy (row.getD nameCol none) then pyStrip (cellText (row.getD nameCol none))
          else []) = []) := by
  unfold processRow
  by_cases h1 : (decide (row = []) || decide (row.length ≤ nameCol)) = true
  · rw [if_pos h1]
    simp only [Bool.or_eq_true, decide_eq_true_eq] at h1
    simp only [true_iff]
    rcases h1 with h | h
    · exact Or.inl h
    · exact Or.inr (Or.inl h)
  · rw [if_neg h1]
    dsimp only
    by_cases h2 : (if cellTruthy (row.getD nameCol none) then
        pyStrip (cellText (row.getD nameCol none)) else []) = []
    · rw [if_pos h2]
      simp only [true_iff]
      exact Or.inr (Or.inr h2)
    · rw [if_neg h2]
      simp only [Bool.or_eq_true, decide_eq_true_eq, not_or] at h1
      constructor
      · intro h
        cases h
      · rintro (h | h | h)
        · exact absurd h h1.1
        · exact absurd h h1.2
        · exact absurd h h2

theorem processRow_some (nameCol : Nat) (qtyCol priceCol amountCol : Option Nat)
    (row : Row) (item : InvoiceItem)
    (h : processRow nameCol qtyCol priceCol amountCol row = some item) :
    item.quantity = parseCellNum row qtyCol 1 ∧
      item.unit_price = parseCellNum row priceCol 0 ∧
      item.amount = parseCellNum row amountCol 0 := by
  unfold processRow at h
  split at h
  · cases h
  · dsimp only at h
    by_cases h2 : (if cellTruthy (row.getD nameCol none) then
        pyStrip (cellText (row.getD nameCol none)) else []) = []
    · rw [if_pos h2] at h
      cases h
    · rw [if_neg h2] at h
      injection h with h
      subst h
      exact ⟨rfl, rfl, rfl⟩

theorem parseCellNum_failure {row : Row} {col : Option Nat} {c : Nat} {dflt : ℚ}
    (hc : col = some c) (hlen : row.length > c)
    (htr : cellTruthy (row.getD c none) = true)
    (hfail : pyFloat ((cellText (row.getD c none)).filter (fun ch => ch ≠ ',')) = none) :
    parseCellNum row col dflt = dflt := by
  subst hc
  unfold parseCellNum
  dsimp only
  rw [if_pos (by simp only [Bool.and_eq_true, decide_eq_true_eq]; exact ⟨hlen, htr⟩)]
  rw [hfail]

theorem gridItems_no_header {g : Grid}
    (h : ∀ row ∈ g, rowHasItemKeyword row = false) : gridItems g = [] := by
  unfold gridItems
  split_ifs with h1
  · rfl
  · rw [List.findIdx?_eq_none_iff.mpr h]

theorem extractItems_cons (g : Grid) (gs : List Grid) :
    extractItemsFromTables (g :: gs) = gridItems g ++ extractItemsFromTables gs := by
  unfold extractItemsFromTables
  rw [List.map_cons, List.flatten_cons]

theorem gridItems_mem {g : Grid} {item : InvoiceItem} (h : item ∈ gridItems g) :
    ∃ (nameCol : Nat) (qtyCol priceCol amountCol : Option Nat) (row : Row),
      row ∈ g ∧ processRow nameCol qtyCol priceCol amountCol row = some item := by
  unfold gridItems at h
  split_ifs at h with h1
  · cases h
  · split at h
    · cases h
    · rename_i hidx
      dsimp only at h
      split at h
      · cases h
      · rename_i nameCol hname
        rw [List.mem_filterMap] at h
        obtain ⟨row, hrow, hproc⟩ := h
        exact ⟨nameCol, _, _, _, row, List.drop_subset _ _ hrow, hproc⟩

theorem pyFloatCore_nonneg {t : List Char} {v : ℚ} (h : pyFloatCore t = some v) : 0 ≤ v := by
  unfold pyFloatCore at h
  dsimp only at h
  split at h
  · split at h
    · cases h
    · injection h with h
      subst h
      positivity
  · split at h
    · injection h with h
      subst h
      positivity
    · cases h
  · cases h

theorem pyStrip_subset {x : Char} {l : List Char} (h : x ∈ pyStrip l) : x ∈ l := by
  unfold pyStrip at h
  rw [List.mem_reverse] at h
  have h2 := (List.dropWhile_sublist pyIsSpace).mem h
  rw [List.mem_reverse] at h2
  exact (List.dropWhile_sublist pyIsSpace).mem h2

theorem pyFloat_nonneg {l : List Char} {v : ℚ} (hm : '-' ∉ l) (h : pyFloat l = some v) :
    0 ≤ v := by
  unfold pyFloat at h
  split at h
  · rename_i r hr
    exfalso
    apply hm
    apply pyStrip_subset (l := l)
    rw [hr]
    exact List.mem_cons_self _ _
  · exact pyFloatCore_nonneg h
  · exact pyFloatCore_nonneg h

theorem parseCellNum_nonneg_of_no_minus {row : Row} {col : Option Nat} {dflt : ℚ}
    (hd : 0 ≤ dflt) (hrow : ∀ cell ∈ row, '-' ∉ cellText cell) :
    0 ≤ parseCellNum row col dflt := by
  unfold parseCellNum
  split
  · rename_i c
    split
    · rename_i hg
      simp only [Bool.and_eq_true, decide_eq_true_eq] at hg
      split
      · rename_i v hv
        have hmem : row.getD c none ∈ row := by
          have hc : c < row.length := hg.1
          rw [List.getD_eq_getElem _ _ hc]
          exact List.getElem_mem _
        have hnm : '-' ∉ cellText (row.getD c none) := hrow _ hmem
        have hnm2 : '-' ∉ (cellText (row.getD c none)).filter (fun ch => ch ≠ ',') := by
          intro hcon
          exact hnm (List.mem_of_mem_filter hcon)
        exact pyFloat_nonneg hnm2 hv
      · exact hd
    · exact hd
  · exact hd

theorem extractItems_amount_nonneg {tables : List Grid}
    (hclean : ∀ g ∈ tables, ∀ row ∈ g, ∀ cell ∈ row, '-' ∉ cellText cell) :
    ∀ item ∈ extractItemsFromTables tables, 0 ≤ item.amount := by
  intro item hitem
  unfold extractItemsFromTables at hitem
  rw [List.mem_flatten] at hitem
  obtain ⟨l, hl, hil⟩ := hitem
  rw [List.mem_map] at hl
  obtain ⟨g, hg, rfl⟩ := hl
  obtain ⟨nameCol, qtyCol, priceCol, amountCol, row, hrowg, hproc⟩ := gridItems_mem hil
  obtain ⟨-, -, hamount⟩ := processRow_some _ _ _ _ _ _ hproc
  rw [hamount]
  exact parseCellNum_nonneg_of_no_minus le_rfl (hclean g hg row hrowg)

theorem mkInvoiceItem_amount_nonneg (name : List Char) {q p a : ℚ}
    (hq : 0 ≤ q) (hp : 0 ≤ p) (ha : 0 ≤ a) : 0 ≤ (mkInvoiceItem name q p a).amount := by
  unfold mkInvoiceItem
  split
  · exact mul_nonneg hq hp
  · exact ha

theorem C5_table_extraction :
    (∀ (g : Grid) (gs : List Grid),
        extractItemsFromTables (g :: gs) = gridItems g ++ extractItemsFromTables gs) ∧
      (∀ g : Grid, (∀ row ∈ g, rowHasItemKeyword row = false) → gridItems g = []) ∧
      (∀ (g : Grid) (h : Nat), g.findIdx? rowHasItemKeyword = some h →
        h < g.length ∧ rowHasItemKeyword (g.getD h []) = true ∧
          ∀ j, j < h → rowHasItemKeyword (g.getD j []) = false) ∧
      (∀ (nameCol : Nat) (qtyCol priceCol amountCol : Option Nat) (row : Row),
        processRow nameCol qtyCol priceCol amountCol row = none ↔
          (row = [] ∨ row.length ≤ nameCol ∨
            (if cellTruthy (row.getD nameCol none) then
              pyStrip (cellText (row.getD nameCol none)) else []) = [])) ∧
      (∀ (nameCol : Nat) (qtyCol priceCol amountCol : Option Nat) (row : Row)
          (item : InvoiceItem),
        processRow nameCol qtyCol priceCol amountCol row = some item →
        (∀ c : Nat, qtyCol = some c → row.length > c →
          cellTruthy (row.getD c none) = true →
          pyFloat ((cellText (row.getD c none)).filter (fun ch => ch ≠ ',')) = none →
          item.quantity = 1) ∧
        (∀ c : Nat, priceCol = some c → row.length > c →
          cellTruthy (row.getD c none) = true →
          pyFloat ((cellText (row.getD c none)).filter (fun ch => ch ≠ ',')) = none →
          item.unit_price = 0) ∧
        (∀ c : Nat, amountCol = some c → row.length > c →
          cellTruthy (row.getD c none) = true →
          pyFloat ((cellText (row.getD c none)).filter (fun ch => ch ≠ ',')) = none →
          item.amount = 0)) ∧
      gridItems titleRowGrid = [widgetItem, gadgetItem] := by
  refine ⟨extractItems_cons, fun g h => gridItems_no_header h, ?_, processRow_none_iff, ?_, by decide⟩
  · intro g h hidx
    rw [List.findIdx?_eq_some_iff_getElem] at hidx
    obtain ⟨hlt, hp, hall⟩ := hidx
    refine ⟨hlt, ?_, ?_⟩
    · rw [List.getD_eq_getElem _ _ hlt]
      exact hp
    · intro j hj
      have hjlen : j < g.length := Nat.lt_trans hj hlt
      rw [List.getD_eq_getElem _ _ hjlen]
      have := hall j hj
      rwa [Bool.not_eq_true] at this
  · intro nameCol qtyCol priceCol amountCol row item hproc
    obtain ⟨hq, hp2, ha⟩ := processRow_some _ _ _ _ _ _ hproc
    refine ⟨?_, ?_, ?_⟩
    · intro c hc hlen htr hfail
      rw [hq, parseCellNum_failure hc hlen htr hfail]
    · intro c hc hlen htr hfail
      rw [hp2, parseCellNum_failure hc hlen htr hfail]
    · intro c hc hlen htr hfail
      rw [ha, parseCellNum_failure hc hlen htr hfail]

theorem C5_table_extraction_witness : gadgetItem.quantity = 1 :=
  ((C5_table_extraction.2.2.2.2.1 0 (some 1) (some 2) (some 3) gadgetRow gadgetItem
    (by decide)).1) 1 rfl (by decide) (by decide) (by decide)

theorem C8_counterexample :
    (extractItemsFromTables [negAmountGrid]).map InvoiceItem.amount = [-5] ∧
      ((-5 : ℚ) < 0) :=
  ⟨by decide, by norm_num⟩

theorem C8_amount_nonneg_amended :
    (∀ token : List Char, 0 ≤ parseAmount token) ∧
      (∀ (name : List Char) (q p : ℚ), 0 ≤ q → 0 ≤ p →
        0 ≤ (mkInvoiceItem name q p 0).amount) ∧
      (∀ tables : List Grid,
        (∀ g ∈ tables, ∀ row ∈ g, ∀ cell ∈ row, '-' ∉ cellText cell) →
        ∀ item ∈ extractItemsFromTables tables, 0 ≤ item.amount) := by
  refine ⟨parseAmount_nonneg, ?_, ?_⟩
  · intro name q p hq hp
    exact mkInvoiceItem_amount_nonneg name hq hp le_rfl
  · intro tables hclean
    exact extractItems_amount_nonneg hclean

theorem C8_amount_nonneg_amended_witness : 0 ≤ widgetItem.amount :=
  C8_amount_nonneg_amended.2.2 [titleRowGrid] (by decide) widgetItem (by decide)

end Invoice
